import Mathlib

/-!
Verification of the Roku deep-link tester core against its specification.

The embedding below translates the JavaScript source (lib/tester.js,
lib/rasp-runner.js, lib/rasp-validator.js) into Lean definitions:
* the beacon stream monitor's per-record extraction (`onData`),
* the two wait coordinators (`waitExactGo` / `waitSmartGo`), modelled as
  state-passing recursions over a discrete 500 ms poll-tick schedule
  `sigma : Nat -> List String` giving the monitor's received set at each tick,
* the input-test sequencing (`runInputTestModel`),
* the RASP validator (`validateModel`) with JavaScript value semantics
  (rationals stand in for JS numbers, `Option` for NaN poisoning, `Except`
  for thrown exceptions),
* the RASP runner's text entry (`enterTextModel`).
-/

namespace RokuDLT

/-! ## String utilities (JS `String.prototype.includes`, regex timing match) -/

/-- JS `haystack.includes(needle)` over char lists. -/
def listContains (l sub : List Char) : Bool :=
  (List.range (l.length + 1)).any fun i => sub.isPrefixOf (l.drop i)

/-- JS `s.includes(pat)`. -/
def strIncludes (s pat : String) : Bool :=
  listContains s.toList pat.toList

/-- JS regex `\s` whitespace class (the characters relevant to log lines). -/
def isJsSpace (c : Char) : Bool :=
  c = ' ' || c = '\t' || c = '\n' || c = '\r' || c = '\x0b' || c = '\x0c'

/-- Digits of a decimal numeral to a natural number. -/
def digitsToNat (ds : List Char) : Nat :=
  ds.foldl (fun n c => 10 * n + (c.toNat - 48)) 0

/-- Try to match `<digits>+\s*ms\)` at the head of `l` after the fixed prefix
`pre` (which is `timingType ++ "("`); returns the captured number. -/
def matchTimingAt (pre l : List Char) : Option Nat :=
  if pre.isPrefixOf l then
    let rest := l.drop pre.length
    let ds := rest.takeWhile Char.isDigit
    if ds.isEmpty then none
    else
      let rest2 := (rest.drop ds.length).dropWhile isJsSpace
      if ("ms)".toList).isPrefixOf rest2 then some (digitsToNat ds) else none
  else none

/-- `extractTiming(logData, timingType)` from lib/tester.js: first (leftmost)
match of the regex `timingType\((\d+)\s*ms\)`, returning the captured integer,
or `none` when the regex does not match. -/
def extractTiming (logData timingType : String) : Option Nat :=
  let pre := timingType.toList ++ ['(']
  let l := logData.toList
  (List.range (l.length + 1)).findSome? fun i => matchTimingAt pre (l.drop i)

/-! ## Beacon stream monitor -/

/-- Monitor state: the cumulative received set (JS `Set`, insertion order) and
the timing map (JS object `beaconTimings`; a `none` value is JS `null`). -/
structure MonState where
  received : List String
  timings : List (String × Option Nat)
deriving Repr, DecidableEq

/-- JS `Set.prototype.add`: append if not already present. -/
def addBeacon (l : List String) (name : String) : List String :=
  if name ∈ l then l else l ++ [name]

/-- JS object key assignment: update in place, else append. -/
def setTiming (ts : List (String × Option Nat)) (k : String) (v : Option Nat) :
    List (String × Option Nat) :=
  if ts.any (fun p => p.1 = k) then
    ts.map fun p => if p.1 = k then (k, v) else p
  else ts ++ [(k, v)]

/-- One branch of the telnet data handler: add `name` and store the timing
extracted with field name `field`. -/
def recordBeacon (st : MonState) (logData name field : String) : MonState :=
  { received := addBeacon st.received name,
    timings := setTiming st.timings name (extractTiming logData field) }

/-- The telnet `data` handler of `connectTelnet` (lib/tester.js, per trimmed
nonempty record): sequentially checks each beacon token. `AppLaunchComplete`
is recorded only when the record also contains both substrings `Duration(`
and `ms)`; otherwise that branch only logs a warning. -/
def onData (st : MonState) (logData : String) : MonState :=
  let st :=
    if strIncludes logData "AppLaunchComplete" then
      if strIncludes logData "Duration(" && strIncludes logData "ms)" then
        recordBeacon st logData "AppLaunchComplete" "Duration"
      else st
    else st
  let st :=
    if strIncludes logData "AppDialogInitiate" then
      { st with received := addBeacon st.received "AppDialogInitiate" }
    else st
  let st :=
    if strIncludes logData "VODStartInitiate" then
      recordBeacon st logData "VODStartInitiate" "TimeBase"
    else st
  let st :=
    if strIncludes logData "VODStartComplete" then
      recordBeacon st logData "VODStartComplete" "Duration"
    else st
  let st :=
    if strIncludes logData "LiveStartInitiate" then
      recordBeacon st logData "LiveStartInitiate" "TimeBase"
    else st
  let st :=
    if strIncludes logData "LiveStartComplete" then
      recordBeacon st logData "LiveStartComplete" "Duration"
    else st
  st

/-- The empty monitor state. -/
def initMon : MonState := ⟨[], []⟩

lemma mem_addBeacon {l : List String} {b a : String} :
    a ∈ addBeacon l b ↔ a ∈ l ∨ a = b := by
  unfold addBeacon
  split
  · constructor
    · exact Or.inl
    · rintro (h | rfl) <;> assumption
  · simp [List.mem_append]

lemma mem_received_recordBeacon {st : MonState} {logData name field a : String} :
    a ∈ (recordBeacon st logData name field).received ↔
      a ∈ st.received ∨ a = name := mem_addBeacon

/-- C3 counterexample: the record `"AppLaunchComplete Duration(x ms)"` carries
no `Duration(<digits> ms)` field (the timing regex does not match), yet the
data handler adds `AppLaunchComplete` to the received set, because the code
only tests for the substrings `Duration(` and `ms)`. This refutes the claim
that the category is added only when a `Duration(<digits> ms)` field is
present. -/
theorem C3_counterexample :
    extractTiming "AppLaunchComplete Duration(x ms)" "Duration" = none ∧
    "AppLaunchComplete" ∈ (onData initMon "AppLaunchComplete Duration(x ms)").received := by
  decide

/-- C3 (amended): a record adds `AppLaunchComplete` to the received set iff it
contains the token `AppLaunchComplete` together with both substrings
`Duration(` and `ms)` (a well-formed `Duration(<digits> ms)` field is *not*
required); records failing this test leave the `AppLaunchComplete` membership
unchanged and raise no error. -/
theorem C3_amended (st : MonState) (logData : String) :
    "AppLaunchComplete" ∈ (onData st logData).received ↔
      "AppLaunchComplete" ∈ st.received ∨
        (strIncludes logData "AppLaunchComplete" = true ∧
         strIncludes logData "Duration(" = true ∧
         strIncludes logData "ms)" = true) := by
  unfold onData
  split_ifs <;>
    simp_all [recordBeacon, mem_addBeacon]

/-- C3 amended theorem instantiated at a concrete record with a well-formed
duration field. -/
theorem C3_amended_witness :
    "AppLaunchComplete" ∈ (onData initMon "AppLaunchComplete Duration(2000 ms)").received := by
  rw [C3_amended initMon "AppLaunchComplete Duration(2000 ms)"]
  right
  refine ⟨by decide, by decide, by decide⟩

/-! ## Beacon wait coordinator

Both waits poll every 500 ms; we model real time discretely, tick `k`
happening at `500 * k` ms after the wait started.  The monitor's received set
as seen by the poll at tick `k` is `sigma k`; the baseline (`initialBeacons`
in the source) is the received set at tick 0, i.e. `sigma 0`. -/

/-- Freshness test of the wait loops:
`this.beaconsReceived.has(b) && !initialBeacons.has(b)`. -/
def freshB (received baseline : List String) (b : String) : Bool :=
  received.contains b && !(baseline.contains b)

/-- `newBeacons` of `waitForBeacons` at tick `k`. -/
def newBeaconsAt (sigma : Nat → List String) (expected baseline : List String)
    (k : Nat) : List String :=
  expected.filter (freshB (sigma k) baseline)

/-- Result object resolved by `waitForBeacons` (exact mode). `missing` is `[]`
on the success path (the success payload has no `missing` key). -/
structure ExactOutcome where
  passed : Bool
  duration : Nat
  missing : List String
  found : List String
deriving Repr, DecidableEq

/-- The polling loop `checkBeacons` of `waitForBeacons` (lib/tester.js):
`g` is `allBeaconsFoundAt` (as elapsed ms, `none` = not yet set). Per tick:
if all expected beacons are fresh, record the grace start once and succeed
when 2000 ms have passed since it; otherwise, and also while the grace is
still running, time out once `elapsed >= timeout`; else poll again 500 ms
later.  On timeout the missing list tests only current received-set
membership (`!this.beaconsReceived.has(beacon)`), not freshness. -/
def waitExactGo (sigma : Nat → List String) (expected baseline : List String)
    (timeout : Nat) (k : Nat) (g : Option Nat) : ExactOutcome :=
  let newBeacons := newBeaconsAt sigma expected baseline k
  if newBeacons.length = expected.length then
    let g' := g.getD (500 * k)
    if 500 * k - g' ≥ 2000 then
      { passed := true, duration := 500 * k, missing := [], found := newBeacons }
    else if _h : 500 * k ≥ timeout then
      { passed := false, duration := 500 * k,
        missing := expected.filter (fun b => !((sigma k).contains b)),
        found := newBeacons }
    else waitExactGo sigma expected baseline timeout (k + 1) (some g')
  else if _h : 500 * k ≥ timeout then
    { passed := false, duration := 500 * k,
      missing := expected.filter (fun b => !((sigma k).contains b)),
      found := newBeacons }
  else waitExactGo sigma expected baseline timeout (k + 1) g
termination_by timeout - 500 * k
decreasing_by all_goals omega

/-- `waitForBeacons(testName, expectedBeacons, timeout)`: the baseline is the
received set snapshotted when the wait starts. -/
def waitExactRun (sigma : Nat → List String) (expected : List String)
    (timeout : Nat) : ExactOutcome :=
  waitExactGo sigma expected (sigma 0) timeout 0 none

/-- Result object resolved by `waitForBeaconsWithSmartDetection`. -/
structure SmartOutcome where
  passed : Bool
  duration : Nat
  playbackStarted : Bool
  contentType : Option String
  missing : List String
  found : List String
deriving Repr, DecidableEq

/-- `getFoundBeacons(expectedBeacons, initialBeacons)`: the launch beacon is
reported only when fresh, but the video pairs are reported from plain
received-set membership. -/
def getFoundBeacons (received baseline expected : List String) : List String :=
  (if expected.contains "AppLaunchComplete" &&
      (received.contains "AppLaunchComplete" &&
       !(baseline.contains "AppLaunchComplete")) then
    ["AppLaunchComplete"]
  else []) ++
  (if expected.contains "VideoPlaybackStart" then
    if received.contains "VODStartInitiate" && received.contains "VODStartComplete" then
      ["VODStartInitiate", "VODStartComplete"]
    else if received.contains "LiveStartInitiate" && received.contains "LiveStartComplete" then
      ["LiveStartInitiate", "LiveStartComplete"]
    else []
  else [])

/-- The per-tick video-pair evaluation of the smart wait, returning
`(videoPlaybackFound, playbackStarted, contentType)`: the VOD pair (both
beacons fresh) is checked before the Live pair, every tick anew. -/
def videoCheck (received baseline expected : List String) : Bool × Bool × Option String :=
  if expected.contains "VideoPlaybackStart" then
    if freshB received baseline "VODStartInitiate" &&
       freshB received baseline "VODStartComplete" then
      (true, true, some "VOD")
    else if freshB received baseline "LiveStartInitiate" &&
            freshB received baseline "LiveStartComplete" then
      (true, true, some "Live")
    else (false, false, none)
  else (true, false, none)

/-- The per-tick `appLaunchFound` evaluation: required only when
`AppLaunchComplete` is among the expected beacons, and then it must be fresh
against the baseline. -/
def appLaunchAt (received baseline expected : List String) : Bool :=
  if expected.contains "AppLaunchComplete" then
    freshB received baseline "AppLaunchComplete"
  else true

/-- The polling loop `checkBeacons` of `waitForBeaconsWithSmartDetection`:
no grace period; resolves on the first tick where every requested condition
holds.  `det` carries `this.detectedContentType`, overwritten whenever a pair
is (re-)detected on a tick. -/
def waitSmartGo (sigma : Nat → List String) (expected baseline : List String)
    (timeout : Nat) (k : Nat) (det : Option String) : SmartOutcome :=
  if appLaunchAt (sigma k) baseline expected &&
     (videoCheck (sigma k) baseline expected).1 then
    { passed := true, duration := 500 * k,
      playbackStarted := (videoCheck (sigma k) baseline expected).2.1,
      contentType := (videoCheck (sigma k) baseline expected).2.2,
      missing := [],
      found := getFoundBeacons (sigma k) baseline expected }
  else if _h : 500 * k ≥ timeout then
    { passed := false, duration := 500 * k, playbackStarted := false,
      contentType := none,
      missing :=
        (if expected.contains "AppLaunchComplete" &&
            !(appLaunchAt (sigma k) baseline expected) then
          ["AppLaunchComplete"] else []) ++
        (if expected.contains "VideoPlaybackStart" &&
            !((videoCheck (sigma k) baseline expected).1) then
          ["Video playback beacons (VOD or Live)"] else []),
      found := getFoundBeacons (sigma k) baseline expected }
  else
    waitSmartGo sigma expected baseline timeout (k + 1)
      (match (videoCheck (sigma k) baseline expected).2.2 with
       | some s => some s | none => det)
termination_by timeout - 500 * k
decreasing_by omega

/-- `waitForBeaconsWithSmartDetection(testName, expectedBeacons, timeout)`:
baseline is the received set at wait start; `det0` is the value of
`this.detectedContentType` when the wait starts. -/
def waitSmartRun (sigma : Nat → List String) (expected : List String)
    (timeout : Nat) (det0 : Option String) : SmartOutcome :=
  waitSmartGo sigma expected (sigma 0) timeout 0 det0

/-! ## Stepping lemmas for the exact-mode wait loop -/

section ExactLemmas

variable (sigma : Nat → List String) (expected baseline : List String) (timeout : Nat)

lemma exactGo_step_not_complete {k : Nat} (g : Option Nat)
    (hnc : (newBeaconsAt sigma expected baseline k).length ≠ expected.length)
    (ht : 500 * k < timeout) :
    waitExactGo sigma expected baseline timeout k g =
      waitExactGo sigma expected baseline timeout (k + 1) g := by
  rw [waitExactGo]
  simp only [hnc, if_false, dif_neg (by omega : ¬ 500 * k ≥ timeout)]

lemma exactGo_step_complete_start {k : Nat}
    (hc : (newBeaconsAt sigma expected baseline k).length = expected.length)
    (ht : 500 * k < timeout) :
    waitExactGo sigma expected baseline timeout k none =
      waitExactGo sigma expected baseline timeout (k + 1) (some (500 * k)) := by
  rw [waitExactGo]
  simp only [hc, if_true, Option.getD_none, Nat.sub_self,
    dif_neg (by omega : ¬ 500 * k ≥ timeout)]
  norm_num

lemma exactGo_step_complete_grace {k t : Nat}
    (hc : (newBeaconsAt sigma expected baseline k).length = expected.length)
    (hg : 500 * k - t < 2000)
    (ht : 500 * k < timeout) :
    waitExactGo sigma expected baseline timeout k (some t) =
      waitExactGo sigma expected baseline timeout (k + 1) (some t) := by
  rw [waitExactGo]
  simp only [hc, if_true, Option.getD_some,
    if_neg (by omega : ¬ (500 * k - t ≥ 2000)),
    dif_neg (by omega : ¬ 500 * k ≥ timeout)]

lemma exactGo_resolve {k t : Nat}
    (hc : (newBeaconsAt sigma expected baseline k).length = expected.length)
    (hg : 500 * k - t ≥ 2000) :
    waitExactGo sigma expected baseline timeout k (some t) =
      { passed := true, duration := 500 * k, missing := [],
        found := newBeaconsAt sigma expected baseline k } := by
  rw [waitExactGo]
  simp only [hc, if_true, Option.getD_some, if_pos hg]

end ExactLemmas

/-! ## Monotone beacon arrival -/

section Mono

variable {sigma : Nat → List String} {expected baseline : List String}

lemma mem_sigma_mono (hσ : ∀ k, ∀ b ∈ sigma k, b ∈ sigma (k + 1))
    {b : String} {j i : Nat} (hji : j ≤ i) (hb : b ∈ sigma j) : b ∈ sigma i := by
  induction hji with
  | refl => exact hb
  | step h ih => exact hσ _ _ ih

lemma freshB_mono (hσ : ∀ k, ∀ b ∈ sigma k, b ∈ sigma (k + 1))
    {b : String} {j i : Nat} (hji : j ≤ i)
    (hb : freshB (sigma j) baseline b = true) :
    freshB (sigma i) baseline b = true := by
  unfold freshB at *
  simp only [List.contains, Bool.and_eq_true, List.elem_iff,
    Bool.not_eq_true'] at *
  exact ⟨mem_sigma_mono hσ hji hb.1, hb.2⟩

lemma complete_iff {k : Nat} :
    (newBeaconsAt sigma expected baseline k).length = expected.length ↔
      ∀ b ∈ expected, freshB (sigma k) baseline b = true := by
  unfold newBeaconsAt
  constructor
  · intro h
    have := (List.filter_sublist (l := expected)
      (p := freshB (sigma k) baseline)).eq_of_length h
    exact fun b hb => List.filter_eq_self.mp this b hb
  · intro h
    rw [List.filter_eq_self.mpr h]

lemma complete_mono (hσ : ∀ k, ∀ b ∈ sigma k, b ∈ sigma (k + 1))
    {j i : Nat} (hji : j ≤ i)
    (hc : (newBeaconsAt sigma expected baseline j).length = expected.length) :
    (newBeaconsAt sigma expected baseline i).length = expected.length := by
  rw [complete_iff] at hc ⊢
  exact fun b hb => freshB_mono hσ hji (hc b hb)

end Mono

/-! ## C2: grace-period behaviour of the exact-mode wait -/

section C2sec

variable {sigma : Nat → List String} {expected : List String} {timeout : Nat}

lemma exactGo_skip {baseline : List String} {j k0 : Nat} (hjk : j ≤ k0)
    (hnc : ∀ i, j ≤ i → i < k0 →
      (newBeaconsAt sigma expected baseline i).length ≠ expected.length)
    (htm : 500 * k0 < timeout) :
    waitExactGo sigma expected baseline timeout j none =
      waitExactGo sigma expected baseline timeout k0 none := by
  obtain ⟨d, rfl⟩ : ∃ d, k0 = j + d := ⟨k0 - j, by omega⟩
  clear hjk
  induction d generalizing j with
  | zero => rfl
  | succ d ih =>
      rw [exactGo_step_not_complete sigma expected baseline timeout none
        (hnc j le_rfl (by omega)) (by omega)]
      have := ih (j := j + 1) (fun i h1 h2 => hnc i (by omega) (by omega))
        (by omega)
      rw [show j + 1 + d = j + (d + 1) by omega] at this
      exact this

/-- C2: in the exact-mode wait, once every required category is present in
the received set and absent from the baseline (first happening at tick `k0`),
the 2000 ms grace timer starts there, is recorded once, and is neither
cancelled nor extended by further beacon arrivals: with monotone beacon
arrival and the deadline far enough away, the wait returns passed = true with
elapsed duration exactly `500 * k0 + 2000` ms, i.e. exactly 2000 ms after the
grace start, with all expected categories reported found. -/
theorem C2_grace_period (sigma : Nat → List String) (expected : List String)
    (timeout k0 : Nat)
    (hσ : ∀ k, ∀ b ∈ sigma k, b ∈ sigma (k + 1))
    (hc : (newBeaconsAt sigma expected (sigma 0) k0).length = expected.length)
    (hfirst : ∀ j, j < k0 →
      (newBeaconsAt sigma expected (sigma 0) j).length ≠ expected.length)
    (htm : 500 * (k0 + 3) < timeout) :
    waitExactRun sigma expected timeout =
      { passed := true, duration := 500 * k0 + 2000, missing := [],
        found := expected } := by
  unfold waitExactRun
  rw [exactGo_skip (Nat.zero_le k0) (fun i _ h2 => hfirst i h2) (by omega)]
  rw [exactGo_step_complete_start sigma expected (sigma 0) timeout hc (by omega)]
  rw [exactGo_step_complete_grace sigma expected (sigma 0) timeout
    (complete_mono hσ (by omega) hc) (by omega) (by omega)]
  rw [show k0 + 1 + 1 = k0 + 2 by omega]
  rw [exactGo_step_complete_grace sigma expected (sigma 0) timeout
    (complete_mono hσ (by omega) hc) (by omega) (by omega)]
  rw [show k0 + 2 + 1 = k0 + 3 by omega]
  rw [exactGo_step_complete_grace sigma expected (sigma 0) timeout
    (complete_mono hσ (by omega) hc) (by omega) (by omega)]
  rw [show k0 + 3 + 1 = k0 + 4 by omega]
  rw [exactGo_resolve sigma expected (sigma 0) timeout
    (complete_mono hσ (by omega) hc) (by omega)]
  have hfound : newBeaconsAt sigma expected (sigma 0) (k0 + 4) = expected := by
    have h4 := complete_mono hσ (by omega : k0 ≤ k0 + 4) hc
    unfold newBeaconsAt at h4 ⊢
    exact (List.filter_sublist _).eq_of_length h4
  rw [hfound]
  congr 1

end C2sec

/-- Schedule for the C2 witness: `AppLaunchComplete` arrives between tick 0
and tick 1 and stays. -/
def sigGrace : Nat → List String := fun k =>
  if k = 0 then [] else ["AppLaunchComplete"]

/-- C2 witness: concrete run where the required beacon becomes fresh at tick 1
(500 ms); the wait succeeds exactly 2000 ms later, at 2500 ms. -/
theorem C2_grace_period_witness :
    waitExactRun sigGrace ["AppLaunchComplete"] 30000 =
      { passed := true, duration := 500 * 1 + 2000, missing := [],
        found := ["AppLaunchComplete"] } := by
  apply C2_grace_period sigGrace ["AppLaunchComplete"] 30000 1
  · intro k b hb
    unfold sigGrace at hb ⊢
    split at hb
    · simp at hb
    · simpa using hb
  · decide
  · intro j hj
    have : j = 0 := by omega
    subst this
    decide
  · norm_num

/-! ## C1: smart-mode content-type detection -/

section C1sec

variable {sigma : Nat → List String} {expected baseline : List String}
variable {timeout : Nat}

lemma smartGo_vod_aux
    (hσ : ∀ k, ∀ b ∈ sigma k, b ∈ sigma (k + 1))
    (hreq : expected.contains "VideoPlaybackStart" = true)
    {j : Nat}
    (hvodI : freshB (sigma j) baseline "VODStartInitiate" = true)
    (hvodC : freshB (sigma j) baseline "VODStartComplete" = true) :
    ∀ m k det, timeout - 500 * k = m →
      (waitSmartGo sigma expected baseline timeout k det).passed = true →
      500 * j ≤ (waitSmartGo sigma expected baseline timeout k det).duration →
      (waitSmartGo sigma expected baseline timeout k det).contentType
        = some "VOD" := by
  intro m
  induction m using Nat.strong_induction_on with
  | _ m ih =>
    intro k det hm hpass hdur
    rw [waitSmartGo] at hpass hdur ⊢
    by_cases h1 : (appLaunchAt (sigma k) baseline expected &&
        (videoCheck (sigma k) baseline expected).1) = true
    · rw [if_pos h1] at hpass hdur ⊢
      simp only at hdur ⊢
      have hjk : j ≤ k := by omega
      unfold videoCheck
      rw [if_pos hreq, if_pos]
      rw [Bool.and_eq_true]
      exact ⟨freshB_mono hσ hjk hvodI, freshB_mono hσ hjk hvodC⟩
    · rw [if_neg h1] at hpass hdur ⊢
      by_cases h2 : 500 * k ≥ timeout
      · rw [dif_pos h2] at hpass
        simp at hpass
      · rw [dif_neg h2] at hpass hdur ⊢
        exact ih (timeout - 500 * (k + 1)) (by omega) (k + 1) _ rfl hpass hdur

end C1sec

/-- Schedule for C1: the Live pair is fully fresh at tick 1 while the VOD pair
is not; by tick 2 the VOD pair and `AppLaunchComplete` have also arrived. -/
def sigFlip : Nat → List String := fun k =>
  if k = 0 then []
  else if k = 1 then ["LiveStartInitiate", "LiveStartComplete"]
  else ["LiveStartInitiate", "LiveStartComplete", "VODStartInitiate",
        "VODStartComplete", "AppLaunchComplete"]

/-- C1 counterexample: the Live pair is the first fully-satisfied pair (at
tick 1, when the VOD pair is not yet complete), yet because the loop
re-evaluates both pairs every tick with VOD priority, the wait resolves at
tick 2 with contentType = VOD.  The first-satisfied pair did *not* fix
contentType for the remainder of the wait. -/
theorem C1_counterexample :
    (freshB (sigFlip 1) (sigFlip 0) "LiveStartInitiate" = true ∧
     freshB (sigFlip 1) (sigFlip 0) "LiveStartComplete" = true ∧
     freshB (sigFlip 1) (sigFlip 0) "VODStartInitiate" = false) ∧
    waitSmartRun sigFlip ["AppLaunchComplete", "VideoPlaybackStart"] 30000 none =
      { passed := true, duration := 1000, playbackStarted := true,
        contentType := some "VOD", missing := [],
        found := ["AppLaunchComplete", "VODStartInitiate", "VODStartComplete"] } := by
  constructor
  · exact ⟨by decide, by decide, by decide⟩
  · simp [waitSmartRun, waitSmartGo, sigFlip, videoCheck, appLaunchAt, freshB,
      getFoundBeacons]

/-- C1 (amended): every poll tick checks the VOD pair before the Live pair,
and contentType is fixed by the evaluation at the resolving tick, with VOD
taking priority.  Consequently (under monotone beacon arrival) whenever the
VOD pair has been fresh at any tick at or before the resolving tick of a
passed smart wait, the reported contentType is VOD — even if the Live pair
was the first fully-satisfied pair; a provisional Live detection can still
flip to VOD on a later tick, contrary to the original claim. -/
theorem C1_amended (sigma : Nat → List String) (expected : List String)
    (timeout : Nat) (det0 : Option String) (j : Nat)
    (hσ : ∀ k, ∀ b ∈ sigma k, b ∈ sigma (k + 1))
    (hreq : expected.contains "VideoPlaybackStart" = true)
    (hvodI : freshB (sigma j) (sigma 0) "VODStartInitiate" = true)
    (hvodC : freshB (sigma j) (sigma 0) "VODStartComplete" = true)
    (hpass : (waitSmartRun sigma expected timeout det0).passed = true)
    (hdur : 500 * j ≤ (waitSmartRun sigma expected timeout det0).duration) :
    (waitSmartRun sigma expected timeout det0).contentType = some "VOD" := by
  unfold waitSmartRun at *
  exact smartGo_vod_aux hσ hreq hvodI hvodC (timeout - 500 * 0) 0 det0 rfl
    hpass hdur

/-- C1 amended theorem instantiated on the `sigFlip` schedule (VOD pair fresh
at tick 2, wait resolves at tick 2). -/
theorem C1_amended_witness :
    (waitSmartRun sigFlip ["AppLaunchComplete", "VideoPlaybackStart"]
      30000 none).contentType = some "VOD" := by
  apply C1_amended sigFlip _ 30000 none 2
  · intro k b hb
    unfold sigFlip at hb ⊢
    match k with
    | 0 => simp at hb
    | 1 =>
        simp only [if_neg (by omega : (1 : Nat) ≠ 0), if_pos rfl] at hb
        simp only [if_neg (by omega : (2 : Nat) ≠ 0),
          if_neg (by omega : (2 : Nat) ≠ 1)]
        rcases (by simpa using hb : b = "LiveStartInitiate" ∨ b = "LiveStartComplete") with
          rfl | rfl <;> simp
    | (n + 2) =>
        simp only [if_neg (by omega : n + 2 ≠ 0), if_neg (by omega : n + 2 ≠ 1),
          if_neg (by omega : n + 3 ≠ 0), if_neg (by omega : n + 3 ≠ 1)] at hb ⊢
        exact hb
  · decide
  · decide
  · decide
  · simp [waitSmartRun, waitSmartGo, sigFlip, videoCheck, appLaunchAt, freshB,
      getFoundBeacons]
  · simp [waitSmartRun, waitSmartGo, sigFlip, videoCheck, appLaunchAt, freshB,
      getFoundBeacons]

/-! ## C4 and C5: baseline freshness and the timeout missing list -/

section C45sec

variable {sigma : Nat → List String} {expected baseline : List String}
variable {timeout : Nat}

lemma exactGo_baseline_never_passes {C : String}
    (hCb : C ∈ baseline) (hCe : C ∈ expected) :
    ∀ m k g, timeout - 500 * k = m →
      (waitExactGo sigma expected baseline timeout k g).passed = false := by
  intro m
  induction m using Nat.strong_induction_on with
  | _ m ih =>
    intro k g hm
    by_cases hc : (newBeaconsAt sigma expected baseline k).length = expected.length
    · exfalso
      have hfresh := complete_iff.mp hc C hCe
      unfold freshB at hfresh
      have hcontains : baseline.contains C = true := List.elem_iff.mpr hCb
      rw [hcontains] at hfresh
      simp at hfresh
    · rw [waitExactGo, if_neg hc]
      by_cases h2 : 500 * k ≥ timeout
      · rw [dif_pos h2]
      · rw [dif_neg h2]
        exact ih (timeout - 500 * (k + 1)) (by omega) (k + 1) g rfl

lemma smartGo_baseline_launch_never_passes
    (hb : "AppLaunchComplete" ∈ baseline)
    (he : expected.contains "AppLaunchComplete" = true) :
    ∀ m k det, timeout - 500 * k = m →
      (waitSmartGo sigma expected baseline timeout k det).passed = false := by
  intro m
  induction m using Nat.strong_induction_on with
  | _ m ih =>
    intro k det hm
    rw [waitSmartGo]
    have hlaunch : appLaunchAt (sigma k) baseline expected = false := by
      unfold appLaunchAt
      rw [if_pos he]
      unfold freshB
      have hcb : baseline.contains "AppLaunchComplete" = true :=
        List.elem_iff.mpr hb
      rw [hcb]
      simp
    rw [if_neg (by simp [hlaunch])]
    by_cases h2 : 500 * k ≥ timeout
    · rw [dif_pos h2]
    · rw [dif_neg h2]
      exact ih (timeout - 500 * (k + 1)) (by omega) (k + 1) _ rfl

lemma exactGo_fail_char :
    ∀ m k g, timeout - 500 * k = m →
      (waitExactGo sigma expected baseline timeout k g).passed = false →
      ∃ k', (waitExactGo sigma expected baseline timeout k g).duration = 500 * k' ∧
        timeout ≤ 500 * k' ∧
        (waitExactGo sigma expected baseline timeout k g).missing =
          expected.filter (fun b => !((sigma k').contains b)) := by
  intro m
  induction m using Nat.strong_induction_on with
  | _ m ih =>
    intro k g hm hfail
    rw [waitExactGo] at hfail ⊢
    by_cases hc : (newBeaconsAt sigma expected baseline k).length = expected.length
    · rw [if_pos hc] at hfail ⊢
      by_cases hg : 500 * k - (g.getD (500 * k)) ≥ 2000
      · rw [if_pos hg] at hfail
        simp at hfail
      · rw [if_neg hg] at hfail ⊢
        by_cases h2 : 500 * k ≥ timeout
        · rw [dif_pos h2] at hfail ⊢
          exact ⟨k, rfl, h2, rfl⟩
        · rw [dif_neg h2] at hfail ⊢
          exact ih (timeout - 500 * (k + 1)) (by omega) (k + 1) _ rfl hfail
    · rw [if_neg hc] at hfail ⊢
      by_cases h2 : 500 * k ≥ timeout
      · rw [dif_pos h2] at hfail ⊢
        exact ⟨k, rfl, h2, rfl⟩
      · rw [dif_neg h2] at hfail ⊢
        exact ih (timeout - 500 * (k + 1)) (by omega) (k + 1) _ rfl hfail

end C45sec

/-- Schedule in which `AppLaunchComplete` is already present when the wait
(and thus its baseline snapshot) starts, and nothing new ever arrives. -/
def sigAlways : Nat → List String := fun _ => ["AppLaunchComplete"]

/-- Schedule in which no beacon ever arrives. -/
def sigNever : Nat → List String := fun _ => []

/-- C4: a category `C` in the baseline snapshot (the received set at wait
start) never contributes to satisfying a wait: it is never among the fresh
`newBeacons` at any tick; consequently an exact-mode wait requiring `C` can
never pass, and a smart-mode wait requiring `AppLaunchComplete` can never
pass when that beacon is in the baseline.  (In the set model, re-adding a
present element is a no-op, so membership in the baseline permanently bars a
category from counting for this wait, exactly as the claim's invariant
demands.) -/
theorem C4_baseline_never_counts (sigma : Nat → List String)
    (expected : List String) (timeout : Nat) (det0 : Option String)
    (C : String) (hCb : C ∈ sigma 0) :
    (∀ k, C ∉ newBeaconsAt sigma expected (sigma 0) k) ∧
    (C ∈ expected → (waitExactRun sigma expected timeout).passed = false) ∧
    (C = "AppLaunchComplete" → expected.contains "AppLaunchComplete" = true →
      (waitSmartRun sigma expected timeout det0).passed = false) := by
  refine ⟨?_, ?_, ?_⟩
  · intro k hmem
    rw [newBeaconsAt, List.mem_filter] at hmem
    have h2 := hmem.2
    unfold freshB at h2
    have hcontains : (sigma 0).contains C = true := List.elem_iff.mpr hCb
    rw [hcontains] at h2
    simp at h2
  · intro hCe
    unfold waitExactRun
    exact exactGo_baseline_never_passes hCb hCe (timeout - 500 * 0) 0 none rfl
  · rintro rfl he
    unfold waitSmartRun
    exact smartGo_baseline_launch_never_passes hCb he (timeout - 500 * 0)
      0 det0 rfl

/-- C4 witness: with `AppLaunchComplete` in the baseline and required, the
exact and smart waits both fail and the category is never fresh. -/
theorem C4_witness :
    (waitExactRun sigAlways ["AppLaunchComplete"] 1000).passed = false ∧
    "AppLaunchComplete" ∉ newBeaconsAt sigAlways ["AppLaunchComplete"]
      (sigAlways 0) 3 ∧
    (waitSmartRun sigAlways ["AppLaunchComplete"] 1000 none).passed = false := by
  have h := C4_baseline_never_counts sigAlways ["AppLaunchComplete"] 1000 none
    "AppLaunchComplete" (by decide)
  exact ⟨h.2.1 (by decide), h.1 3, h.2.2 rfl (by decide)⟩

/-- C5 counterexample: with `AppLaunchComplete` already in the baseline and
never freshly re-observed, the exact-mode wait times out (passed = false) but
its missing list is empty — the category is in the received set, so the
timeout path does not report it — whereas the claim demands the missing list
contain exactly the required categories not freshly observed since the
baseline (here `["AppLaunchComplete"]`). -/
theorem C5_counterexample :
    waitExactRun sigAlways ["AppLaunchComplete"] 1000 =
      { passed := false, duration := 1000, missing := [], found := [] } ∧
    freshB (sigAlways 2) (sigAlways 0) "AppLaunchComplete" = false ∧
    (waitExactRun sigAlways ["AppLaunchComplete"] 1000).missing ≠
      ["AppLaunchComplete"] := by
  refine ⟨?_, by decide, ?_⟩
  · simp [waitExactRun, waitExactGo, sigAlways, newBeaconsAt, freshB]
  · simp [waitExactRun, waitExactGo, sigAlways, newBeaconsAt, freshB]

/-- C5 (amended): when the exact-mode wait returns passed = false it does so
at a poll tick `k'` whose elapsed time `500 * k'` has reached the timeout, and
the reported missing list consists of the required categories absent from the
received set at that tick — plain membership, ignoring the baseline/freshness
test used by the success condition. -/
theorem C5_amended (sigma : Nat → List String) (expected : List String)
    (timeout : Nat)
    (hfail : (waitExactRun sigma expected timeout).passed = false) :
    ∃ k', (waitExactRun sigma expected timeout).duration = 500 * k' ∧
      timeout ≤ 500 * k' ∧
      (waitExactRun sigma expected timeout).missing =
        expected.filter (fun b => !((sigma k').contains b)) := by
  unfold waitExactRun at *
  exact exactGo_fail_char (timeout - 500 * 0) 0 none rfl hfail

/-- C5 amended theorem instantiated on the never-arriving schedule. -/
theorem C5_amended_witness :
    (waitExactRun sigNever ["AppLaunchComplete"] 1000).passed = false ∧
    (∃ k', (waitExactRun sigNever ["AppLaunchComplete"] 1000).duration = 500 * k' ∧
      1000 ≤ 500 * k' ∧
      (waitExactRun sigNever ["AppLaunchComplete"] 1000).missing =
        ["AppLaunchComplete"].filter (fun b => !((sigNever k').contains b))) := by
  have hfail : (waitExactRun sigNever ["AppLaunchComplete"] 1000).passed = false := by
    simp [waitExactRun, waitExactGo, sigNever, newBeaconsAt, freshB]
  exact ⟨hfail, C5_amended sigNever ["AppLaunchComplete"] 1000 hfail⟩

/-! ## C6: input-test warm-up sequencing (runInputTest) -/

/-- Observable actions of the test sequencer, in program order. -/
inductive Act where
  | keypress (key : String)
  | sleep (ms : Nat)
  | clearBeacons
  | launchCmd (withContentParams : Bool)
  | inputCmd (withContentParams : Bool)
  | waitExactFor (cats : List String) (timeoutMs : Nat)
  | waitSmartFor (cats : List String) (timeoutMs : Nat)
deriving Repr, DecidableEq

/-- A phase result as accumulated into `testResults`. -/
structure TestRecord where
  passed : Bool
deriving Repr, DecidableEq

/-- `requiredBeacons` as assembled at the top of `runDeepLinkTest`. -/
def requiredBeaconsFor (command : String) (mediaVideo : Bool)
    (extra : Option String) : List String :=
  (if command == "launch" then ["AppLaunchComplete"] else []) ++
  (if mediaVideo then ["VideoPlaybackStart"] else []) ++
  (match extra with | some e => [e] | none => [])

/-- `runDeepLinkTest(testName, command)`: clear the beacon state, send the
deep-link command with content parameters, and on success run the smart wait;
a failed send records a failed result immediately.  `mediaVideo` is
`mediaType ∈ {movie, episode}`, `extra` the optional `--expect-beacon`
category, `cmdOk` whether the ECP command was accepted. -/
def runDeepLinkTestModel (command : String) (mediaVideo : Bool)
    (extra : Option String) (cmdOk : Bool) (sigma : Nat → List String)
    (det0 : Option String) (waitTime : Nat) : List Act × TestRecord :=
  let req := requiredBeaconsFor command mediaVideo extra
  let sendAct := if command == "input" then Act.inputCmd true else Act.launchCmd true
  if cmdOk then
    ([Act.clearBeacons, sendAct, Act.waitSmartFor req waitTime],
     { passed := (waitSmartRun sigma req waitTime det0).passed })
  else ([Act.clearBeacons, sendAct], { passed := false })

/-- `runInputTest()` (lib/tester.js).  Non-signed-in path: press Home, pause
2000 ms, clear the beacon baseline, send a plain launch (no content
parameters), and run the exact-mode wait for `AppLaunchComplete` with timeout
`min(waitTime, 30000)`; if the plain launch fails to send or that wait does
not pass, return without running the input-test phase (no result recorded).
Otherwise pause 2000 ms and run the input-test phase, whose actions and
record are supplied as `inputPhase`.  The signed-in path skips the warm-up. -/
def runInputTestModel (isSignedIn : Bool) (waitTime : Nat) (launchOk : Bool)
    (sigmaWarm : Nat → List String) (inputPhase : List Act × TestRecord) :
    List Act × Option TestRecord :=
  if isSignedIn = false then
    let pre := [Act.keypress "Home", Act.sleep 2000, Act.clearBeacons,
                Act.launchCmd false]
    if launchOk = false then (pre, none)
    else
      let w := waitExactRun sigmaWarm ["AppLaunchComplete"] (min waitTime 30000)
      let pre2 := pre ++ [Act.waitExactFor ["AppLaunchComplete"] (min waitTime 30000)]
      if w.passed = false then (pre2, none)
      else (pre2 ++ [Act.sleep 2000] ++ inputPhase.1, some inputPhase.2)
  else ([Act.sleep 2000] ++ inputPhase.1, some inputPhase.2)

/-- C6: the non-signed-in input-test path sends a Home keypress, pauses,
clears the beacon baseline, issues a launch with no content parameters and
waits exact-mode for `AppLaunchComplete` with timeout `min(waitTime, 30000)`;
if the plain launch fails to send, or that wait does not pass, no input-test
result is recorded (so the input test is in particular never recorded as
passed). -/
theorem C6_warmup_gate (waitTime : Nat) (launchOk : Bool)
    (sigmaWarm : Nat → List String) (inputPhase : List Act × TestRecord) :
    (launchOk = false →
      runInputTestModel false waitTime launchOk sigmaWarm inputPhase =
        ([Act.keypress "Home", Act.sleep 2000, Act.clearBeacons,
          Act.launchCmd false], none)) ∧
    (launchOk = true →
      (runInputTestModel false waitTime launchOk sigmaWarm inputPhase).1.take 5 =
        [Act.keypress "Home", Act.sleep 2000, Act.clearBeacons,
         Act.launchCmd false,
         Act.waitExactFor ["AppLaunchComplete"] (min waitTime 30000)] ∧
      ((waitExactRun sigmaWarm ["AppLaunchComplete"] (min waitTime 30000)).passed
          = false →
        (runInputTestModel false waitTime launchOk sigmaWarm inputPhase).2 = none)) := by
  constructor
  · rintro rfl
    simp [runInputTestModel]
  · rintro rfl
    constructor
    · unfold runInputTestModel
      by_cases hw : (waitExactRun sigmaWarm ["AppLaunchComplete"]
          (min waitTime 30000)).passed = false <;>
        simp [hw]
    · intro hw
      unfold runInputTestModel
      simp [hw]

/-- C6 witness: warm-up launch accepted but `AppLaunchComplete` never arrives
within the 1000 ms window — the input test is skipped. -/
theorem C6_warmup_gate_witness :
    (runInputTestModel false 1000 true sigNever ([], ⟨true⟩)).2 = none ∧
    (runInputTestModel false 1000 true sigNever ([], ⟨true⟩)).1.take 5 =
      [Act.keypress "Home", Act.sleep 2000, Act.clearBeacons,
       Act.launchCmd false, Act.waitExactFor ["AppLaunchComplete"] 1000] := by
  have h := (C6_warmup_gate 1000 true sigNever ([], ⟨true⟩)).2 rfl
  have hfail : (waitExactRun sigNever ["AppLaunchComplete"]
      (min 1000 30000)).passed = false := by
    norm_num
    simp [waitExactRun, waitExactGo, sigNever, newBeaconsAt, freshB]
  refine ⟨h.2 hfail, ?_⟩
  have := h.1
  simpa using this

/-! ## C10: run-level success flag (formatResults) -/

/-- `formatResults(overrideSuccess)`: the success flag is the override when
one is supplied (`runTests` passes `false` when aborted by an exception),
else `passedTests === totalTests && totalTests > 0` over the accumulated
phase results. -/
def formatSuccess (testPassed : List Bool) (overrideSuccess : Option Bool) : Bool :=
  match overrideSuccess with
  | some b => b
  | none =>
    (decide ((testPassed.filter (fun p => p)).length = testPassed.length)) &&
    (decide (0 < testPassed.length))

/-- C10: without an override the run-level success flag is true iff at least
one phase result was accumulated and every accumulated result passed (zero
results give false); an aborted run's override forces the flag regardless of
the accumulated results (the abort path passes `false`). -/
theorem C10_success_iff (l : List Bool) :
    (formatSuccess l none = true ↔ l ≠ [] ∧ ∀ b ∈ l, b = true) ∧
    (∀ b : Bool, formatSuccess l (some b) = b) := by
  constructor
  · unfold formatSuccess
    simp only [Bool.and_eq_true, decide_eq_true_eq]
    constructor
    · rintro ⟨h1, h2⟩
      refine ⟨by simpa using List.length_pos.mp h2, fun b hb => ?_⟩
      have hself := (List.filter_sublist (l := l)
        (p := fun p => p)).eq_of_length h1
      simpa using List.filter_eq_self.mp hself b hb
    · rintro ⟨h1, h2⟩
      have hself : l.filter (fun p => p) = l :=
        List.filter_eq_self.mpr (fun b hb => by simpa using h2 b hb)
      exact ⟨by rw [hself], List.length_pos.mpr h1⟩
  · intro b
    rfl

/-- C10 witness: all-passed, empty, mixed, and overridden result lists. -/
theorem C10_success_iff_witness :
    formatSuccess [true, true] none = true ∧
    formatSuccess [] none = false ∧
    formatSuccess [true, false] none = false ∧
    formatSuccess [true, true] (some false) = false := by
  refine ⟨?_, ?_, ?_, ?_⟩
  · exact (C10_success_iff [true, true]).1.mpr ⟨by simp, by simp⟩
  · decide
  · decide
  · decide

/-! ## RASP validator (C7, C8) -/

/-- Exact rational numbers as unnormalised numerator/denominator pairs: the
idealisation of the JS floating-point arithmetic of the validator (all the
costs involved are exact decimals).  Denominators are kept positive by
construction. -/
structure QR where
  num : ℤ
  den : ℤ
deriving Repr, DecidableEq

def QR.ofInt (n : ℤ) : QR := ⟨n, 1⟩

def QR.add (x y : QR) : QR := ⟨x.num * y.den + y.num * x.den, x.den * y.den⟩

/-- `Math.ceil` (denominator positive). -/
def QR.ceil (q : QR) : ℤ := -((-q.num) / q.den)

/-- JS falsiness / `||` test of a number: `q == 0`. -/
def QR.isZero (q : QR) : Bool := q.num == 0

/-- JS `parseInt` on a number: truncation toward zero. -/
def QR.trunc (q : QR) : ℤ := Int.tdiv q.num q.den

inductive YVal where
  | str (s : String)
  | num (q : QR)
  | nul
  | boolean (b : Bool)
  | arr (l : List YVal)
  | obj (kvs : List (String × YVal))

def getKey (v : YVal) (k : String) : Option YVal :=
  match v with
  | .obj kvs => (kvs.find? (fun p => p.1 == k)).map (·.2)
  | _ => none

def objKeys (v : YVal) : List String :=
  match v with
  | .obj kvs => kvs.map (·.1)
  | .arr l => (List.range l.length).map (fun i => toString i)
  | _ => []

def stepGet (step : YVal) (k : String) : YVal :=
  match step with
  | .obj kvs => (((kvs.find? (fun p => p.1 == k)).map (·.2)).getD .nul)
  | .arr l =>
      ((((List.range l.length).zip l).find? (fun p => toString p.1 == k)).map
        (·.2)).getD .nul
  | _ => .nul

def jsFalsy (v : YVal) : Bool :=
  match v with
  | .nul => true
  | .boolean b => !b
  | .num q => q.isZero
  | .str s => s == ""
  | _ => false

def isStr (v : YVal) : Bool := match v with | .str _ => true | _ => false

def isNum (v : YVal) : Bool := match v with | .num _ => true | _ => false

def isObjType (v : YVal) : Bool :=
  match v with | .obj _ => true | .arr _ => true | .nul => true | _ => false

def digitsPrefix (l : List Char) : Option Nat :=
  let ds := l.takeWhile Char.isDigit
  if ds.isEmpty then none else some (digitsToNat ds)

def parseIntStr (s : String) : Option Int :=
  match s.toList.dropWhile isJsSpace with
  | '-' :: rest => (digitsPrefix rest).map (fun n => -(n : Int))
  | '+' :: rest => (digitsPrefix rest).map (fun n => (n : Int))
  | l => (digitsPrefix l).map (fun n => (n : Int))

def parseIntJs (v : YVal) : Option Int :=
  match v with
  | .num q => some q.trunc
  | .str s => parseIntStr s
  | _ => none

/-- JS `String.prototype.toLowerCase` (ASCII, as used for key names). -/
def strLower (s : String) : String := ⟨s.toList.map Char.toLower⟩

def isSingleAlnum (s : String) : Bool :=
  match s.toList with
  | [c] => c.isAlpha || c.isDigit
  | _ => false

def validKeysList : List String :=
  ["ok", "up", "down", "left", "right", "home", "back", "replay", "info",
   "backspace", "search", "enter", "select", "play", "rev", "fwd"]

def validStepTypesList : List String := ["launch", "press", "text", "pause"]

/-- NaN-aware addition: `none` is JS `NaN` and is absorbing. -/
def addQ (tot : Option QR) (x : QR) : Option QR := tot.map (fun t => t.add x)

/-- `params.default_keypress_wait || 1` (only numeric values modelled; a
non-numeric value is already reported by the params check). -/
def defaultWaitOf (params : YVal) : QR :=
  match getKey params "default_keypress_wait" with
  | some (.num q) => if q.isZero then QR.ofInt 1 else q
  | _ => QR.ofInt 1

def stepIdxMsg (idx : Nat) (rest : String) : String :=
  "Step " ++ toString (idx + 1) ++ ": " ++ rest

/-- One iteration of the `steps.forEach` body of `RaspValidator.validateSteps`.
The accumulator carries the errors collected so far and the running duration
(`none` = NaN).  The `.error` result models the uncaught `TypeError` thrown
when a `text` step's value is `null` and `stepValue.length` is read; for a
number or boolean the read yields `undefined` and the duration becomes NaN;
an array has a real `.length`.  The three structural failures (non-object,
multi-key, unknown type) `return` before the inter-step delay is added; the
per-kind branches fall through to it. -/
def validateOneStep (n : Nat) (defaultWait : QR) (idx : Nat) (step : YVal)
    (acc : List String × Option QR) :
    Except (List String × String) (List String × Option QR) :=
  let errs := acc.1
  let tot := acc.2
  let gap : Option QR → Option QR := fun t =>
    if idx < n - 1 then addQ t defaultWait else t
  match step with
  | .obj _ | .arr _ =>
    let keys := objKeys step
    if keys.length ≠ 1 then
      .ok (errs ++ [stepIdxMsg idx "Must contain exactly one action"], tot)
    else
      let stepType := keys.headD ""
      let stepValue := stepGet step stepType
      if !(validStepTypesList.contains stepType) then
        .ok (errs ++ [stepIdxMsg idx
          ("Unknown step type \"" ++ stepType ++ "\"")], tot)
      else if stepType == "launch" then
        let errs' :=
          if jsFalsy stepValue || !(isStr stepValue) then
            errs ++ [stepIdxMsg idx "launch requires a string channel ID"]
          else errs
        .ok (errs', gap (addQ tot (QR.ofInt 3)))
      else if stepType == "press" then
        let errs' :=
          if jsFalsy stepValue || !(isStr stepValue) then
            errs ++ [stepIdxMsg idx "press requires a string key name"]
          else
            match stepValue with
            | .str s =>
                if !(validKeysList.contains (strLower s)) && !(isSingleAlnum s) then
                  errs ++ [stepIdxMsg idx
                    ("\"" ++ s ++ "\" is not a valid key")]
                else errs
            | _ => errs
        .ok (errs', gap (addQ tot ⟨1, 10⟩))
      else if stepType == "text" then
        let errs' :=
          if jsFalsy stepValue || !(isStr stepValue) then
            errs ++ [stepIdxMsg idx "text requires a string value"]
          else errs
        match stepValue with
        | .str s => .ok (errs', gap (addQ tot ⟨(s.length : ℤ), 20⟩))
        | .nul =>
            .error (errs',
              "TypeError: Cannot read properties of null (reading 'length')")
        | .arr l => .ok (errs', gap (addQ tot ⟨(l.length : ℤ), 20⟩))
        | _ => .ok (errs', gap none)
      else
        match parseIntJs stepValue with
        | some p =>
            if p < 0 then
              .ok (errs ++ [stepIdxMsg idx
                "pause requires a positive number of seconds"], gap tot)
            else .ok (errs, gap (addQ tot (QR.ofInt p)))
        | none =>
            .ok (errs ++ [stepIdxMsg idx
              "pause requires a positive number of seconds"], gap tot)
  | _ =>
    .ok (errs ++ [stepIdxMsg idx "Must be an object"], tot)

/-- `RaspValidator.validateSteps(steps, errors, params)`: fold the per-step
body over the enumerated steps, then `Math.ceil` the total duration.  A
thrown `TypeError` escapes with the errors pushed so far. -/
def validateStepsModel (steps : List YVal) (params : YVal) :
    Except (List String × String) (List String × Option ℤ) := do
  let defaultWait := defaultWaitOf params
  let n := steps.length
  let r ← steps.enum.foldlM
    (fun acc (p : Nat × YVal) => validateOneStep n defaultWait p.1 p.2 acc)
    ([], some (QR.ofInt 0))
  return (r.1, r.2.map (fun q => q.ceil))

/-- The result object of `RaspValidator.validate` (estimatedDuration `none` =
NaN). -/
structure VResult where
  valid : Bool
  errors : List String
  stepCount : Nat
  estimatedDuration : Option ℤ
deriving Repr, DecidableEq

def truthyKeyNotNum (params : YVal) (k : String) : Bool :=
  match getKey params k with
  | some v => !(jsFalsy v) && !(isNum v)
  | none => false

def truthyKeyNotObj (params : YVal) (k : String) : Bool :=
  match getKey params k with
  | some v => !(jsFalsy v) && !(isObjType v)
  | none => false

/-- `RaspValidator.validateParams`. -/
def validateParamsErrs (params : YVal) : List String :=
  (if truthyKeyNotNum params "rasp_version" then
    ["rasp_version must be a number"] else []) ++
  (if truthyKeyNotNum params "default_keypress_wait" then
    ["default_keypress_wait must be a number"] else []) ++
  (if truthyKeyNotObj params "channels" then
    ["channels must be an object"] else [])

/-- `RaspValidator.validate` after a successful YAML parse of `script`: the
params checks run first, then the steps section is checked and measured; a
`TypeError` escaping `validateSteps` is caught and appended as a single
`Failed to parse YAML: ...` error (the errors pushed before the throw
remain, `estimatedDuration` keeps its initial 0, `stepCount` was already
set). -/
def validateModel (script : YVal) : VResult :=
  if jsFalsy script then
    { valid := false, errors := ["Script file is empty or invalid YAML"],
      stepCount := 0, estimatedDuration := some 0 }
  else
    let paramsErrs :=
      match getKey script "params" with
      | some p => if jsFalsy p then [] else validateParamsErrs p
      | none => []
    let stepsV := (getKey script "steps").getD .nul
    if jsFalsy stepsV then
      { valid := false,
        errors := paramsErrs ++ ["Script must contain a \"steps\" section"],
        stepCount := 0, estimatedDuration := some 0 }
    else
      match stepsV with
      | .arr steps =>
        match validateStepsModel steps ((getKey script "params").getD (.obj [])) with
        | .ok (errs, dur) =>
          { valid := (paramsErrs ++ errs).isEmpty,
            errors := paramsErrs ++ errs,
            stepCount := steps.length, estimatedDuration := dur }
        | .error (errs, msg) =>
          { valid := false,
            errors := paramsErrs ++ errs ++ ["Failed to parse YAML: " ++ msg],
            stepCount := steps.length, estimatedDuration := some 0 }
      | _ =>
        { valid := false,
          errors := paramsErrs ++ ["\"steps\" must be an array"],
          stepCount := 0, estimatedDuration := some 0 }

/-- The four-step script `[launch: X, pause: 5, press: ok, text: "ab"]` with
no params section. -/
def script7 : YVal := .obj [("steps", .arr [
  .obj [("launch", .str "X")],
  .obj [("pause", .num (QR.ofInt 5))],
  .obj [("press", .str "ok")],
  .obj [("text", .str "ab")]])]

/-- A script whose first step is `text: null` and whose second step carries
the invalid key name `zz`. -/
def script8 : YVal := .obj [("steps", .arr [
  .obj [("text", .nul)],
  .obj [("press", .str "zz")]])]

/-- C7: on the four-step script `[launch: X, pause: 5, press: ok, text: "ab"]`
with no params section, the validator returns stepCount = 4 and
estimatedDuration = 12 = ceil(3 + 1 + 5 + 1 + 0.1 + 1 + 0.1): per-kind costs
launch 3 s, pause 5 s, press 0.1 s, text 0.05 s per character (2 characters),
plus the default 1 s inter-step delay once per gap (3 gaps for 4 steps),
rounded up to a whole second. -/
theorem C7_validator_estimate :
    validateModel script7 =
      { valid := true, errors := [], stepCount := 4,
        estimatedDuration := some 12 } ∧
    (12 : ℤ) = QR.ceil ((((((QR.ofInt 0).add (QR.ofInt 3)).add (QR.ofInt 1)).add
      (QR.ofInt 5)).add (QR.ofInt 1)).add ⟨1, 10⟩ |>.add (QR.ofInt 1) |>.add ⟨2, 20⟩) := by
  exact ⟨by decide, by decide⟩

/-- C8: evaluation at the failing input `[{text: null}, {press: "zz"}]`.  The
first step's per-kind error is pushed, then reading `.length` of `null`
throws; validation aborts, the exception is caught as one `Failed to parse
YAML` error, and the second step — an invalid key, as the conjuncts about
`"zz"` show — is never examined: no error mentioning `zz` is returned,
contradicting the claim that every step is examined and each violation
yields one entry. -/
theorem C8_text_null_aborts :
    validateModel script8 =
      { valid := false,
        errors := ["Step 1: text requires a string value",
          "Failed to parse YAML: TypeError: Cannot read properties of null (reading 'length')"],
        stepCount := 2, estimatedDuration := some 0 } ∧
    (validKeysList.contains "zz" = false ∧ isSingleAlnum "zz" = false) ∧
    (validateModel script8).errors.all (fun e => !(strIncludes e "zz")) = true := by
  exact ⟨by decide, ⟨by decide, by decide⟩, by decide⟩

/-! ## C9: RASP runner text entry (RaspRunner.enterText) -/

/-- JS `String.prototype.toUpperCase` (ASCII). -/
def strUpper (s : String) : String := ⟨s.toList.map Char.toUpper⟩

def jsStartsWith (s pre : String) : Bool := pre.toList.isPrefixOf s.toList

def strDropChars (s : String) (n : Nat) : String := ⟨s.toList.drop n⟩

def lookupEnv (env : List (String × String)) (k : String) : Option String :=
  (env.find? (fun p => p.1 == k)).map (·.2)

def envVarFor (suffix : String) : String :=
  let placeholder := strUpper suffix
  if placeholder == "LOGIN" then "RASP_LOGIN"
  else if placeholder == "PASSWORD" then "RASP_PASSWORD"
  else "RASP_" ++ placeholder

def missingMsg (v : String) : String :=
  "Required environment variable not set: " ++ v ++
    ". Set it with: export " ++ v ++ "=\"your-value\""

inductive TextAct where
  | sendChar (c : Char)
  | delayMs (n : Nat)
deriving Repr, DecidableEq

def dispatchChars : List Char → List TextAct
  | [] => []
  | c :: cs => TextAct.sendChar c :: TextAct.delayMs 50 :: dispatchChars cs

def enterTextModel (env : List (String × String)) (text : String) :
    Except String (List TextAct) :=
  if jsStartsWith text "script-" then
    match lookupEnv env (envVarFor (strDropChars text 7)) with
    | some s =>
        if s == "" then .error (missingMsg (envVarFor (strDropChars text 7)))
        else .ok (dispatchChars s.toList)
    | none => .error (missingMsg (envVarFor (strDropChars text 7)))
  else .ok (dispatchChars text.toList)

def sentChars : List TextAct → List Char
  | [] => []
  | .sendChar c :: t => c :: sentChars t
  | .delayMs _ :: t => sentChars t

def delaysAre50 : List TextAct → Bool
  | [] => true
  | .delayMs n :: t => (n == 50) && delaysAre50 t
  | .sendChar _ :: t => delaysAre50 t

def noAdjacentSends : List TextAct → Bool
  | .sendChar _ :: .sendChar _ :: _ => false
  | _ :: t => noAdjacentSends t
  | [] => true

lemma sentChars_dispatch (l : List Char) : sentChars (dispatchChars l) = l := by
  induction l with
  | nil => rfl
  | cons c cs ih => simp [dispatchChars, sentChars, ih]

lemma delaysAre50_dispatch (l : List Char) :
    delaysAre50 (dispatchChars l) = true := by
  induction l with
  | nil => rfl
  | cons c cs ih => simp [dispatchChars, delaysAre50, ih]

lemma noAdjacentSends_dispatch (l : List Char) :
    noAdjacentSends (dispatchChars l) = true := by
  induction l with
  | nil => rfl
  | cons c cs ih =>
      cases cs with
      | nil => rfl
      | cons d ds => simpa [dispatchChars, noAdjacentSends] using ih

lemma isPrefixOf_append_self (l t : List Char) :
    l.isPrefixOf (l ++ t) = true := by
  induction l with
  | nil => simp [List.isPrefixOf]
  | cons c cs ih => simp [List.isPrefixOf, ih]

lemma startsWith_script (suffix : String) :
    jsStartsWith ("script-" ++ suffix) "script-" = true := by
  unfold jsStartsWith
  have : ("script-" ++ suffix).toList = "script-".toList ++ suffix.toList := by
    simp [String.toList]
  rw [this]
  exact isPrefixOf_append_self _ _

lemma drop7_script (suffix : String) :
    strDropChars ("script-" ++ suffix) 7 = suffix := by
  unfold strDropChars
  have h1 : ("script-" ++ suffix).toList = "script-".toList ++ suffix.toList := by
    simp [String.toList]
  rw [h1]
  have h2 : ("script-".toList.length) = 7 := by decide
  rw [show (7 : Nat) = "script-".toList.length from h2.symm,
    List.drop_left]
  cases suffix
  rfl

end RokuDLT

namespace RokuDLT

instance : DecidableEq (Except String (List TextAct)) := fun x y =>
  match x, y with
  | .ok a, .ok b => decidable_of_iff (a = b) (by simp)
  | .error a, .error b => decidable_of_iff (a = b) (by simp)
  | .ok _, .error _ => isFalse (by simp)
  | .error _, .ok _ => isFalse (by simp)

lemma strIncludes_mid (a v b : String) : strIncludes (a ++ v ++ b) v = true := by
  unfold strIncludes listContains
  rw [List.any_eq_true]
  have hl : (a ++ v ++ b).toList = a.toList ++ (v.toList ++ b.toList) := by
    simp [String.toList]
  refine ⟨a.toList.length, ?_, ?_⟩
  · rw [List.mem_range, hl]
    simp only [List.length_append]
    omega
  · rw [hl, List.drop_left]
    exact isPrefixOf_append_self _ _

/-- C9 counterexample: with `RASP_LOGIN` set to the empty string — i.e.
*set*, not unset — the text step still fails with the missing-variable error
and dispatches nothing, whereas the claim promises dispatch of the resolved
text whenever the variable is not unset. -/
theorem C9_counterexample :
    lookupEnv [("RASP_LOGIN", "")] "RASP_LOGIN" = some "" ∧
    enterTextModel [("RASP_LOGIN", "")] "script-login" =
      .error (missingMsg "RASP_LOGIN") ∧
    enterTextModel [("RASP_LOGIN", "")] "script-login" ≠
      .ok (dispatchChars "".toList) := by
  exact ⟨by decide, by decide, by decide⟩

/-- C9 (amended): a Text step value `script-<suffix>` resolves through the
environment — suffix `login` to `RASP_LOGIN`, `password` to `RASP_PASSWORD`,
any other suffix to `RASP_<uppercase suffix>`; if the resolved variable is
unset **or set to the empty string** the step fails with an error naming the
variable and no characters are sent; otherwise the resolved (or, for
non-placeholder values, the literal) text is dispatched one character at a
time, in order, with a fixed 50 ms delay between characters. -/
theorem C9_amended (env : List (String × String)) (suffix s t : String) :
    (envVarFor "login" = "RASP_LOGIN" ∧ envVarFor "password" = "RASP_PASSWORD") ∧
    (strUpper suffix ≠ "LOGIN" → strUpper suffix ≠ "PASSWORD" →
      envVarFor suffix = "RASP_" ++ strUpper suffix) ∧
    (lookupEnv env (envVarFor suffix) = none →
      enterTextModel env ("script-" ++ suffix) =
        .error (missingMsg (envVarFor suffix))) ∧
    (lookupEnv env (envVarFor suffix) = some "" →
      enterTextModel env ("script-" ++ suffix) =
        .error (missingMsg (envVarFor suffix))) ∧
    (lookupEnv env (envVarFor suffix) = some s → s ≠ "" →
      enterTextModel env ("script-" ++ suffix) = .ok (dispatchChars s.toList)) ∧
    (jsStartsWith t "script-" = false →
      enterTextModel env t = .ok (dispatchChars t.toList)) ∧
    strIncludes (missingMsg (envVarFor suffix)) (envVarFor suffix) = true ∧
    (sentChars (dispatchChars s.toList) = s.toList ∧
     delaysAre50 (dispatchChars s.toList) = true ∧
     noAdjacentSends (dispatchChars s.toList) = true) := by
  refine ⟨⟨by decide, by decide⟩, ?_, ?_, ?_, ?_, ?_, ?_,
    sentChars_dispatch _, delaysAre50_dispatch _, noAdjacentSends_dispatch _⟩
  · intro h1 h2
    unfold envVarFor
    rw [if_neg (by simpa using h1), if_neg (by simpa using h2)]
  · intro h
    unfold enterTextModel
    rw [if_pos (startsWith_script suffix), drop7_script, h]
  · intro h
    unfold enterTextModel
    rw [if_pos (startsWith_script suffix), drop7_script, h]
    simp
  · intro h hs
    unfold enterTextModel
    rw [if_pos (startsWith_script suffix), drop7_script, h]
    simp [hs]
  · intro h
    unfold enterTextModel
    rw [if_neg (by simp [h])]
  · have hmm : missingMsg (envVarFor suffix) =
        "Required environment variable not set: " ++ envVarFor suffix ++
          (". Set it with: export " ++ envVarFor suffix ++ "=\"your-value\"") := by
      unfold missingMsg
      simp [String.append_assoc]
    rw [hmm]
    exact strIncludes_mid _ _ _

/-- C9 amended theorem instantiated at the spec example: `RASP_LOGIN` set to
`u@e.com` dispatches exactly those characters in order. -/
theorem C9_amended_witness :
    enterTextModel [("RASP_LOGIN", "u@e.com")] "script-login" =
      .ok (dispatchChars "u@e.com".toList) ∧
    sentChars (dispatchChars "u@e.com".toList) = "u@e.com".toList := by
  have h := C9_amended [("RASP_LOGIN", "u@e.com")] "login" "u@e.com" ""
  exact ⟨h.2.2.2.2.1 (by decide) (by decide), h.2.2.2.2.2.2.2.1⟩

end RokuDLT
